import Mathlib

/-
Verification of the vasm build-orchestration scripts: the command dispatcher
in x.py, and the extraction scripts generate-docs.py and todo.py.

The embedding is shallow: each Python function is translated to a Lean
function over explicit data.  Printing and external side effects are
modelled as an event trace, and process termination (exit) as an optional
exit code carried along the trace.
-/

namespace PyStr

/-- Python's substring search `haystack.find(needle) != -1`, scanning left to
right over the characters of the haystack, as used by `str.find` in todo.py
and x.py. -/
def strFind (needle : List Char) : List Char → Bool
  | [] => needle.isEmpty
  | c :: rest => needle.isPrefixOf (c :: rest) || strFind needle rest

/-- Python's `str.strip()`: drop whitespace from both ends, over the
character list of the string. -/
def strip (s : String) : String :=
  String.mk (((s.data.dropWhile Char.isWhitespace).reverse.dropWhile
    Char.isWhitespace).reverse)

/-- Python's `s.startswith(pre)`. -/
def startsWith (s pre : String) : Bool :=
  pre.data.isPrefixOf s.data

end PyStr

namespace GenerateDocs

/-- generate-docs.py, `extractAllDocumentation` (lines 4-18): iterates the
lines of the file, appending `line.strip()` whenever the raw line starts
with "///" and its stripped form is not the bare "///". -/
def extractAllDocumentation (lines : List String) : List String :=
  lines.foldl
    (fun doc_lines line =>
      if PyStr.startsWith line "///" && PyStr.strip line != "///" then
        doc_lines ++ [PyStr.strip line]
      else doc_lines)
    []

/-- The claim's phrasing of the result: exactly the stripped forms of the
lines that begin with the marker "///" and whose stripped form is not the
bare marker. -/
def docSpecLines (lines : List String) : List String :=
  (lines.filter fun line =>
    PyStr.startsWith line "///" && PyStr.strip line != "///").map PyStr.strip

end GenerateDocs

namespace Todo

/-- The marker searched for by todo.py. -/
def todoMarker : List Char := "TODO".data

/-- todo.py, `extractAllDocumentation` (lines 4-19): appends `line.strip()`
for every line with `line.find("TODO") != -1`. -/
def extractAllDocumentation (lines : List String) : List String :=
  lines.foldl
    (fun todo_lines line =>
      if PyStr.strFind todoMarker line.data then todo_lines ++ [PyStr.strip line]
      else todo_lines)
    []

/-- todo.py walk loop (lines 21-33): for a scanned file, if the extracted
list is empty (`len(todos) <= 0`) nothing is printed for that file;
otherwise a header line and one indented line per hit. -/
def outputBlock (sub_path : String) (lines : List String) : List String :=
  let todos := extractAllDocumentation lines
  if todos.length ≤ 0 then []
  else ("documentation in " ++ sub_path) :: todos.map (fun t => "  " ++ t)

end Todo

namespace X

/-- The two external tools probed with `shutil.which` at the top of x.py. -/
inductive Tool
  | zig
  | asciidoctor
deriving DecidableEq, Repr

/-- Presence of the external tools: whether the module-level globals `ZIG`
and `ASCIIDOCTOR` are a path (`true`) or `None` (`false`). -/
structure Env where
  zig : Bool
  asciidoctor : Bool
deriving DecidableEq, Repr

/-- The module-level functions of x.py that the `commands` table references
as runners or prerequisites.  `open_website` appears in the table text but
has no definition in the source; its load-time consequences are settled by
the module-load model below, and as a step it is treated like the other
opaque external actions. -/
inductive Step
  | ensure_zig
  | ensure_asciidoc
  | tests
  | tests_summary
  | clean
  | docs
  | man_pages
  | vasm
  | site
  | find_bad_lines
  | help_make
  | open_website
deriving DecidableEq, Repr

/-- The Python `__name__` of each step, as printed by the dispatch loop and
by the help listing. -/
def Step.pyName : Step → String
  | .ensure_zig => "ensure_zig"
  | .ensure_asciidoc => "ensure_asciidoc"
  | .tests => "tests"
  | .tests_summary => "tests_summary"
  | .clean => "clean"
  | .docs => "docs"
  | .man_pages => "man_pages"
  | .vasm => "vasm"
  | .site => "site"
  | .find_bad_lines => "find_bad_lines"
  | .help_make => "help_make"
  | .open_website => "open_website"

/-- One entry of the `commands` registry: the runner (`None` for headless
commands), the description, and the `relies_on` list. -/
structure Cmd where
  runner : Option Step
  description : String
  relies_on : List Step
deriving DecidableEq, Repr

/-- The `commands` registry of x.py (lines 167-238), in insertion order.
Python dicts preserve insertion order, so an association list is faithful. -/
def commands : List (String × Cmd) := [
  ("tests", ⟨some Step.tests, "Builds the tests suite", [Step.ensure_zig]⟩),
  ("tests-summary", ⟨some Step.tests_summary, "Builds the tests suite", [Step.ensure_zig]⟩),
  ("clean", ⟨some Step.clean, "Cleans any zig cache files", []⟩),
  ("docs", ⟨some Step.docs, "Builds the documentation", [Step.ensure_asciidoc]⟩),
  ("all", ⟨none, "Builds everything including stylist, vasm.adoc, and docs and runs tests silently",
    [Step.ensure_zig, Step.ensure_asciidoc, Step.tests, Step.docs, Step.man_pages, Step.vasm, Step.site]⟩),
  ("help", ⟨some Step.help_make, "prints the help menu.", []⟩),
  ("build", ⟨some Step.vasm, "Builds the VASM program.", [Step.ensure_zig]⟩),
  ("vasm", ⟨some Step.vasm, "(alias to build)", [Step.ensure_zig]⟩),
  ("site", ⟨some Step.site, "Builds the website documentation", [Step.ensure_asciidoc]⟩),
  ("man-pages", ⟨some Step.man_pages, "Builds the manual pages (also places them in the docs/man directory)", [Step.ensure_asciidoc]⟩),
  ("ensure-zig", ⟨some Step.ensure_zig, "Ensures that zig is installed", []⟩),
  ("ensure-asciidoc", ⟨some Step.ensure_asciidoc, "Ensures that asciidoctor is installed", []⟩),
  ("open-website", ⟨some Step.open_website, "Opens the website", []⟩),
  ("find-bad-lines", ⟨some Step.find_bad_lines, "Finds any std.debug.print() calls in the source code", []⟩)]

/-- The registry keys in insertion order. -/
def commandNames : List String := commands.map Prod.fst

/-- `commands.get(arg)`: exact, case-sensitive dictionary lookup. -/
def lookupCmd (tok : String) : Option Cmd :=
  (commands.find? (fun p => p.1 == tok)).map Prod.snd

/-- `max_size()` (lines 133-140): the length of the longest command name. -/
def max_size : Nat :=
  commands.foldl (fun m p => if p.1.length > m then p.1.length else m) 0

/-- Python's `str.ljust`: pad on the right with spaces up to the width (a
no-op when the string is already at least that wide). -/
def ljust (s : String) (w : Nat) : String :=
  s ++ String.mk (List.replicate (w - s.length) ' ')

/-- The sort key used by `help_make`: `len(commands[command]["relies_on"])`. -/
def reliesCount (n : String) : Nat :=
  match lookupCmd n with
  | some c => c.relies_on.length
  | none => 0

/-- Stable insertion into a list sorted by `k`: the new element goes before
the first element with a key not smaller than its own, which is exactly the
placement a stable ascending sort gives an element that precedes the rest. -/
def insertByKey (k : α → Nat) (x : α) : List α → List α
  | [] => [x]
  | y :: ys => if k y < k x then y :: insertByKey k x ys else x :: y :: ys

/-- Stable ascending sort by key, modelling Python's stable `sorted`. -/
def sortByKey (k : α → Nat) : List α → List α
  | [] => []
  | x :: xs => insertByKey k x (sortByKey k xs)

/-- `new_commands` in `help_make`:
`sorted(commands, key=lambda c: len(commands[c]["relies_on"]))`. -/
def new_commands : List String := sortByKey reliesCount commandNames

/-- The usage header printed by `help_make` before the listing. -/
def usageHeader : String :=
  "\nusage: x.py [DIRECTIVE...]\n\na directive can be any of the following:\n"

/-- The per-command row of the help listing (terminal colour escapes are
elided throughout, as the spec treats formatting as opaque). -/
def cmdRow (name : String) (c : Cmd) : String :=
  "\t" ++ ljust name (max_size + 2) ++ c.description

/-- The `relies on steps:` line of the help listing: the prerequisite
display names, comma-separated, in declared order. -/
def reliesLine (c : Cmd) : String :=
  ljust "" (max_size + 12) ++ "relies on steps: " ++
    String.intercalate ", " (c.relies_on.map Step.pyName)

/-- The lines printed for one command inside the `help_make` loop: the row,
then the relies line when `relies_on` is non-empty.  (The source also
checks `"relies_on" in commands[command]`, which is true of every entry.) -/
def cmdHelpLines (name : String) : List String :=
  match lookupCmd name with
  | none => []
  | some c =>
    cmdRow name c :: (if c.relies_on.length > 0 then [reliesLine c] else [])

/-- Everything `help_make` prints, in order. -/
def helpLines : List String :=
  usageHeader :: new_commands.flatMap cmdHelpLines

/-- One observable event of a run of x.py. -/
inductive Event
  | runningDependent (s : Step)
  | hasZig
  | warnMissing (t : Tool)
  | run (s : Step)
  | helpLine (l : String)
  | unknown (tok : String)
deriving DecidableEq, Repr

/-- The help listing as events. -/
def helpEvents : List Event := helpLines.map Event.helpLine

/-- Executing one step: the events it prints and, when it calls `exit`, the
exit code.  `ensure_zig` / `ensure_asciidoc` warn and `exit(1)` when their
tool is absent (lines 40-57); `help_make` prints the listing and `exit(0)`
(line 164); every other step is an opaque external action (a `system` call
or filesystem walk), modelled as a single `run` event. -/
def runStep (env : Env) : Step → List Event × Option Nat
  | .ensure_zig =>
    if env.zig then ([Event.hasZig], none)
    else ([Event.warnMissing Tool.zig], some 1)
  | .ensure_asciidoc =>
    if env.asciidoctor then ([], none)
    else ([Event.warnMissing Tool.asciidoctor], some 1)
  | .help_make => (helpEvents, some 0)
  | s => ([Event.run s], none)

/-- The prerequisite loop of the dispatcher (lines 242-247): for each
relier, print the `running dependent step` line, then call it; a
`SystemExit` raised inside a relier propagates, ending the process.  (The
`if relier is not None` guard of the source is vacuous: no `relies_on`
list in the table contains `None`.) -/
def runReliers (env : Env) : List Step → List Event × Option Nat
  | [] => ([], none)
  | p :: ps =>
    match runStep env p with
    | (es, some k) => (Event.runningDependent p :: es, some k)
    | (es, none) =>
      match runReliers env ps with
      | (es2, c2) => (Event.runningDependent p :: (es ++ es2), c2)

/-- Running the command's own runner (lines 249-251): headless commands
(`runner` is `None`) do nothing. -/
def runRunner (env : Env) : Option Step → List Event × Option Nat
  | none => ([], none)
  | some s => runStep env s

/-- Dispatching one token (lines 240-253): unknown tokens print one
diagnostic; known tokens run the reliers then the runner. -/
def dispatchToken (env : Env) (tok : String) : List Event × Option Nat :=
  match lookupCmd tok with
  | none => ([Event.unknown tok], none)
  | some c =>
    match runReliers env c.relies_on with
    | (es, some k) => (es, some k)
    | (es, none) =>
      match runRunner env c.runner with
      | (es2, c2) => (es ++ es2, c2)

/-- The dispatch loop over `argv[1:]`: tokens in order, stopping when a
step exits the process. -/
def dispatch (env : Env) : List String → List Event × Option Nat
  | [] => ([], none)
  | t :: ts =>
    match dispatchToken env t with
    | (es, some k) => (es, some k)
    | (es, none) =>
      match dispatch env ts with
      | (es2, c2) => (es ++ es2, c2)

/-- The names bound at module top level of x.py before line 167, where the
`commands` dict literal is evaluated: the imports of lines 1-6 and the
assignments and function definitions of lines 9-164. -/
def definedNames : List String := [
  "argv", "internal_system", "makedirs", "listdir", "walk", "basename",
  "join", "which", "Fore", "Style", "open_url",
  "WEB_FORMAT", "MAN_FORMAT", "ASCIIDOCTOR", "ZIG",
  "system", "ensure_dir", "ensure_zig", "ensure_asciidoc",
  "tests", "tests_summary", "clean", "docs", "site", "man_pages", "vasm",
  "find_bad_lines", "all", "max_size", "help_make"]

/-- The identifiers the `commands` dict literal (lines 167-238) looks up,
in evaluation order: for each entry, the runner name (when it is not the
literal `None`) followed by the members of its `relies_on` list. -/
def tableNameRefs : List String := [
  "tests", "ensure_zig",
  "tests_summary", "ensure_zig",
  "clean",
  "docs", "ensure_asciidoc",
  "ensure_zig", "ensure_asciidoc", "tests", "docs", "man_pages", "vasm", "site",
  "help_make",
  "vasm", "ensure_zig",
  "vasm", "ensure_zig",
  "site", "ensure_asciidoc",
  "man_pages", "ensure_asciidoc",
  "ensure_zig",
  "ensure_asciidoc",
  "open_website",
  "find_bad_lines"]

/-- Evaluating the `commands` dict literal: Python resolves each referenced
name at evaluation time and raises `NameError` at the first name that is
not bound. -/
def evalCommandsTable : Except String Unit :=
  match tableNameRefs.find? (fun n => !(definedNames.contains n)) with
  | some n => Except.error ("NameError: name " ++ n ++ " is not defined")
  | none => Except.ok ()

/-- Running the module: the dict literal is evaluated before the dispatch
loop at line 240 is reached, so a `NameError` there aborts the process
before any token is examined. -/
def runModule (env : Env) (toks : List String) :
    Except String (List Event × Option Nat) :=
  match evalCommandsTable with
  | Except.error e => Except.error e
  | Except.ok _ => Except.ok (dispatch env toks)

/-- The trace the prerequisite loop produces when no relier exits: the
`running dependent step` log line, then the relier's own events, for each
relier in declared order. -/
def reliersTrace (env : Env) (ps : List Step) : List Event :=
  ps.flatMap fun p => Event.runningDependent p :: (runStep env p).1

/-- The needle searched for by `find_bad_lines`. -/
def badNeedle : List Char := "std.debug.print".data

/-- `find_bad_lines` (lines 109-122) on one scanned file: it binds
`lines = f.read()` (the whole contents, a string), so `for line in lines`
iterates the characters of the contents, and the loop body tests
`line.find("std.debug.print") != -1` on each one-character string,
reporting `line.strip()` on a hit.  The returned list is the per-line
reports printed for the file. -/
def find_bad_lines_reports (contents : String) : List String :=
  contents.data.foldl
    (fun acc line =>
      if PyStr.strFind badNeedle [line] then acc ++ [PyStr.strip (String.mk [line])]
      else acc)
    []

end X

namespace PyStr

/-- `List.isPrefixOf` decides the existence of a suffix completing the list. -/
theorem isPrefixOf_eq_true_iff :
    ∀ (n h : List Char), n.isPrefixOf h = true ↔ ∃ s, h = n ++ s := by
  intro n
  induction n with
  | nil =>
    intro h
    simp [List.isPrefixOf]
  | cons a as ih =>
    intro h
    cases h with
    | nil =>
      simp [List.isPrefixOf]
    | cons b bs =>
      simp only [List.isPrefixOf, Bool.and_eq_true, beq_iff_eq, ih bs,
        List.cons_append, List.cons.injEq]
      constructor
      · rintro ⟨rfl, s, rfl⟩
        exact ⟨s, rfl, rfl⟩
      · rintro ⟨s, rfl, rfl⟩
        exact ⟨rfl, s, rfl⟩

/-- `strFind` is true exactly when the needle occurs as a contiguous
substring of the haystack. -/
theorem strFind_iff (needle : List Char) :
    ∀ hay : List Char,
      strFind needle hay = true ↔ ∃ pre post, hay = pre ++ needle ++ post := by
  intro hay
  induction hay with
  | nil =>
    simp only [strFind, List.isEmpty_iff]
    constructor
    · rintro rfl
      exact ⟨[], [], rfl⟩
    · rintro ⟨pre, post, h⟩
      rcases List.append_eq_nil.mp h.symm with ⟨h1, h2⟩
      rcases List.append_eq_nil.mp h1 with ⟨_, h3⟩
      exact h3
  | cons c t ih =>
    simp only [strFind, Bool.or_eq_true, isPrefixOf_eq_true_iff, ih]
    constructor
    · rintro (⟨s, hs⟩ | ⟨pre, post, ht⟩)
      · exact ⟨[], s, by simp [hs]⟩
      · exact ⟨c :: pre, post, by simp [ht]⟩
    · rintro ⟨pre, post, h⟩
      cases pre with
      | nil =>
        exact Or.inl ⟨post, by simpa using h⟩
      | cons d pre =>
        simp only [List.cons_append, List.cons.injEq] at h
        exact Or.inr ⟨pre, post, h.2⟩

/-- A fold that pushes `f l` for each element satisfying `p` is
filter-then-map; this is the accumulation pattern of the extraction loops. -/
theorem foldl_push_eq (p : String → Bool) (f : String → String) :
    ∀ (lines : List String) (acc : List String),
      lines.foldl (fun a l => if p l then a ++ [f l] else a) acc
        = acc ++ (lines.filter p).map f := by
  intro lines
  induction lines with
  | nil =>
    intro acc
    simp
  | cons l t ih =>
    intro acc
    by_cases h : p l = true
    · simp [List.foldl, h, List.filter_cons, ih]
    · simp [List.foldl, h, List.filter_cons, ih]

end PyStr

namespace X

/-- Looking up the key of any registry entry returns that entry's value:
the keys of `commands` are distinct. -/
theorem lookupCmd_mem : ∀ pc ∈ commands, lookupCmd pc.1 = some pc.2 := by decide

/-- Lookup fails exactly on tokens that are not registry keys: matching is
by exact string equality. -/
theorem lookupCmd_eq_none_iff (tok : String) :
    lookupCmd tok = none ↔ tok ∉ commandNames := by
  constructor
  · intro h hmem
    simp only [lookupCmd, Option.map_eq_none'] at h
    rcases List.mem_map.mp hmem with ⟨pc, hpc, he⟩
    have hne := List.find?_eq_none.mp h pc hpc
    simp [he] at hne
  · intro h
    simp only [lookupCmd, Option.map_eq_none']
    apply List.find?_eq_none.mpr
    intro pc hpc heq
    exact h (List.mem_map.mpr ⟨pc, hpc, beq_iff_eq.mp heq⟩)

/-- When no relier calls `exit`, the prerequisite loop logs and runs each
relier in declared order and falls through. -/
theorem runReliers_ok (env : Env) :
    ∀ ps : List Step, (∀ p ∈ ps, (runStep env p).2 = none) →
      runReliers env ps = (reliersTrace env ps, none) := by
  intro ps
  induction ps with
  | nil =>
    intro _
    rfl
  | cons p ps ih =>
    intro h
    have hp : (runStep env p).2 = none := h p (List.mem_cons_self p ps)
    rcases hs : runStep env p with ⟨es, c⟩
    rw [hs] at hp
    simp only at hp
    subst hp
    have hrec := ih (fun q hq => h q (List.mem_cons_of_mem p hq))
    simp [runReliers, hs, hrec, reliersTrace, List.flatMap_cons]

/-- Dispatching a registered name whose reliers all fall through: the
reliers' trace, then the runner's trace and exit behaviour. -/
theorem dispatchToken_known (env : Env) (pc : String × Cmd) (hmem : pc ∈ commands)
    (h : ∀ p ∈ pc.2.relies_on, (runStep env p).2 = none) :
    dispatchToken env pc.1 =
      (reliersTrace env pc.2.relies_on ++ (runRunner env pc.2.runner).1,
        (runRunner env pc.2.runner).2) := by
  have hl : lookupCmd pc.1 = some pc.2 := lookupCmd_mem pc hmem
  have hr := runReliers_ok env pc.2.relies_on h
  rcases hrr : runRunner env pc.2.runner with ⟨es2, c2⟩
  simp [dispatchToken, hl, hr, hrr]

/-- With both tools present, no relier of any registry entry exits. -/
theorem reliers_no_exit :
    ∀ pc ∈ commands, ∀ p ∈ pc.2.relies_on,
      (runStep ⟨true, true⟩ p).2 = none := by decide

/-- When dispatching a prefix of the token list does not exit the process,
the whole run is the prefix's trace followed by the remainder's run: the
prefix's commands have already executed in full by the time the remainder
is reached. -/
theorem dispatch_append_of_no_exit (env : Env) :
    ∀ pre post : List String, (dispatch env pre).2 = none →
      dispatch env (pre ++ post) =
        ((dispatch env pre).1 ++ (dispatch env post).1, (dispatch env post).2) := by
  intro pre
  induction pre with
  | nil =>
    intro post _
    rcases hp : dispatch env post with ⟨es3, c3⟩
    simp [dispatch, hp]
  | cons t ts ih =>
    intro post h
    rcases hd : dispatchToken env t with ⟨es, c⟩
    rcases hts : dispatch env ts with ⟨es2, c2⟩
    have h1 : dispatch env (t :: ts) =
        match c with
        | some k => (es, some k)
        | none => (es ++ es2, c2) := by
      cases c <;> simp [dispatch, hd, hts]
    cases c with
    | some k =>
      rw [h1] at h
      simp only at h
      cases h
    | none =>
      rw [h1] at h
      simp only at h
      subst h
      have hrec := ih post (by rw [hts])
      rw [hts] at hrec
      rcases hp : dispatch env post with ⟨es3, c3⟩
      rw [hp] at hrec
      simp only at hrec
      simp [List.cons_append, dispatch, hd, hrec, h1, hts, List.append_assoc]

end X

namespace X

/-- Claim C1: the `open-website` entry of the `commands` table names the
runner `open_website`, which is bound nowhere at module level, so
evaluating the table raises a `NameError` for every invocation, before the
dispatch loop examines any token. -/
theorem open_website_undefined_aborts_load (env : Env) (toks : List String) :
    ("open_website" ∈ tableNameRefs ∧ "open_website" ∉ definedNames) ∧
    runModule env toks =
      Except.error "NameError: name open_website is not defined" := by
  exact ⟨by decide, rfl⟩

/-- Counterexample to claim C2 as stated: with zig absent, the token
sequence ["clean"] runs the `clean` command's action and the process does
not terminate with exit code 1 (no warning is printed either) — the tool
check is not performed at startup for every token sequence. -/
theorem missing_tool_check_not_at_startup :
    dispatch ⟨false, true⟩ ["clean"] = ([Event.run Step.clean], none) ∧
    (dispatch ⟨false, true⟩ ["clean"]).2 ≠ some 1 := by
  exact ⟨rfl, by decide⟩

/-- Claim C2 (amended): the tool checks run when `ensure_zig` /
`ensure_asciidoc` are reached as a prerequisite (or as a command's own
runner), not at startup.  At that point, with the tool absent, the warning
is printed and the process terminates immediately with exit code 1, before
the dispatched command's own action and before any later token; but the
commands of earlier tokens have already executed in full (last conjunct),
and a token sequence that never reaches an ensure step for the missing
tool completes without exiting 1 (the counterexample above). -/
theorem missing_tool_exits_when_checked (env : Env) :
    (env.zig = false → ∀ pc ∈ commands,
      pc.2.relies_on.head? = some Step.ensure_zig →
      ∀ rest : List String, dispatch env (pc.1 :: rest) =
        ([Event.runningDependent Step.ensure_zig, Event.warnMissing Tool.zig],
          some 1)) ∧
    (env.zig = false → ∀ rest : List String,
      dispatch env ("ensure-zig" :: rest) =
        ([Event.warnMissing Tool.zig], some 1)) ∧
    (env.asciidoctor = false → ∀ pc ∈ commands,
      pc.2.relies_on.head? = some Step.ensure_asciidoc →
      ∀ rest : List String, dispatch env (pc.1 :: rest) =
        ([Event.runningDependent Step.ensure_asciidoc,
          Event.warnMissing Tool.asciidoctor], some 1)) ∧
    (env.asciidoctor = false → ∀ rest : List String,
      dispatch env ("ensure-asciidoc" :: rest) =
        ([Event.warnMissing Tool.asciidoctor], some 1)) ∧
    (env.zig = true → env.asciidoctor = false → ∀ rest : List String,
      dispatch env ("all" :: rest) =
        ([Event.runningDependent Step.ensure_zig, Event.hasZig,
          Event.runningDependent Step.ensure_asciidoc,
          Event.warnMissing Tool.asciidoctor], some 1)) ∧
    (∀ pre post : List String, (dispatch env pre).2 = none →
      dispatch env (pre ++ post) =
        ((dispatch env pre).1 ++ (dispatch env post).1,
          (dispatch env post).2)) := by
  obtain ⟨z, a⟩ := env
  refine ⟨?_, ?_, ?_, ?_, ?_, dispatch_append_of_no_exit ⟨z, a⟩⟩
  · intro hz
    replace hz : z = false := hz
    subst hz
    rintro ⟨name, c⟩ hmem hhead rest
    have hl : lookupCmd name = some c := lookupCmd_mem ⟨name, c⟩ hmem
    rcases hr : c.relies_on with _ | ⟨p, ps⟩
    · rw [hr] at hhead
      cases hhead
    · rw [hr] at hhead
      simp only [List.head?_cons, Option.some.injEq] at hhead
      subst hhead
      simp [dispatch, dispatchToken, hl, hr, runReliers, runStep]
  · intro hz rest
    replace hz : z = false := hz
    subst hz
    rfl
  · intro ha
    replace ha : a = false := ha
    subst ha
    rintro ⟨name, c⟩ hmem hhead rest
    have hl : lookupCmd name = some c := lookupCmd_mem ⟨name, c⟩ hmem
    rcases hr : c.relies_on with _ | ⟨p, ps⟩
    · rw [hr] at hhead
      cases hhead
    · rw [hr] at hhead
      simp only [List.head?_cons, Option.some.injEq] at hhead
      subst hhead
      simp [dispatch, dispatchToken, hl, hr, runReliers, runStep]
  · intro ha rest
    replace ha : a = false := ha
    subst ha
    rfl
  · intro hz ha rest
    replace hz : z = true := hz
    replace ha : a = false := ha
    subst hz
    subst ha
    rfl

/-- Witness for the amended C2: with zig absent, ["clean", "tests"] runs
the `clean` command in full before the zig check of "tests" warns and
exits 1; with asciidoctor absent, "docs" exits at its first prerequisite,
"all" exits mid-chain after `ensure_zig` succeeds, and "ensure-asciidoc"
warns and exits as a runner. -/
theorem missing_tool_exits_when_checked_witness :
    dispatch ⟨false, true⟩ ["clean", "tests"] =
      ([Event.run Step.clean, Event.runningDependent Step.ensure_zig,
        Event.warnMissing Tool.zig], some 1) ∧
    dispatch ⟨false, true⟩ ["tests", "clean"] =
      ([Event.runningDependent Step.ensure_zig,
        Event.warnMissing Tool.zig], some 1) ∧
    dispatch ⟨true, false⟩ ["docs", "clean"] =
      ([Event.runningDependent Step.ensure_asciidoc,
        Event.warnMissing Tool.asciidoctor], some 1) ∧
    dispatch ⟨true, false⟩ ["all"] =
      ([Event.runningDependent Step.ensure_zig, Event.hasZig,
        Event.runningDependent Step.ensure_asciidoc,
        Event.warnMissing Tool.asciidoctor], some 1) ∧
    dispatch ⟨true, false⟩ ["ensure-asciidoc"] =
      ([Event.warnMissing Tool.asciidoctor], some 1) :=
  ⟨(missing_tool_exits_when_checked ⟨false, true⟩).2.2.2.2.2
      ["clean"] ["tests"] rfl,
    (missing_tool_exits_when_checked ⟨false, true⟩).1 rfl
      ("tests", ⟨some Step.tests, "Builds the tests suite", [Step.ensure_zig]⟩)
      (by decide) rfl ["clean"],
    (missing_tool_exits_when_checked ⟨true, false⟩).2.2.1 rfl
      ("docs", ⟨some Step.docs, "Builds the documentation", [Step.ensure_asciidoc]⟩)
      (by decide) rfl ["clean"],
    (missing_tool_exits_when_checked ⟨true, false⟩).2.2.2.2.1 rfl rfl [],
    (missing_tool_exits_when_checked ⟨true, false⟩).2.2.2.1 rfl []⟩

/-- Claim C3: with the external tools present, dispatching any registered
command's name produces, every time, exactly the declared prerequisites in
order — each preceded by its `running dependent step` log line — followed
by the command's own action. -/
theorem prereqs_then_action_in_order (env : Env) (hz : env.zig = true)
    (ha : env.asciidoctor = true) (pc : String × Cmd) (hmem : pc ∈ commands) :
    dispatchToken env pc.1 =
      (reliersTrace env pc.2.relies_on ++ (runRunner env pc.2.runner).1,
        (runRunner env pc.2.runner).2) := by
  obtain ⟨z, a⟩ := env
  replace hz : z = true := hz
  replace ha : a = true := ha
  subst hz
  subst ha
  exact dispatchToken_known ⟨true, true⟩ pc hmem (reliers_no_exit pc hmem)

/-- Witness for C3: dispatching "tests" logs and runs `ensure_zig`, then
runs the `tests` action. -/
theorem prereqs_then_action_in_order_witness :
    dispatchToken ⟨true, true⟩ "tests" =
      ([Event.runningDependent Step.ensure_zig, Event.hasZig, Event.run Step.tests], none) :=
  prereqs_then_action_in_order ⟨true, true⟩ rfl rfl
    ("tests", ⟨some Step.tests, "Builds the tests suite", [Step.ensure_zig]⟩)
    (by decide)

end X

namespace X

/-- Claim C4: a token absent from the registry yields exactly one
diagnostic event and leaves the processing of the remaining tokens
unchanged; membership in the registry is decided by exact, case-sensitive
string equality. -/
theorem unknown_token_reported_and_continues (env : Env) (tok : String)
    (rest : List String) (h : tok ∉ commandNames) :
    dispatchToken env tok = ([Event.unknown tok], none) ∧
    dispatch env (tok :: rest) =
      (Event.unknown tok :: (dispatch env rest).1, (dispatch env rest).2) ∧
    (∀ t : String, lookupCmd t = none ↔ t ∉ commandNames) := by
  have hn : lookupCmd tok = none := (lookupCmd_eq_none_iff tok).2 h
  refine ⟨by simp [dispatchToken, hn], ?_, lookupCmd_eq_none_iff⟩
  rcases hd : dispatch env rest with ⟨es, c⟩
  simp [dispatch, dispatchToken, hn, hd]

/-- Witness for C4: "Tests" is unknown (matching is case-sensitive, while
"tests" is registered) and the following "clean" token is still processed. -/
theorem unknown_token_reported_and_continues_witness :
    dispatchToken ⟨true, true⟩ "Tests" = ([Event.unknown "Tests"], none) ∧
    dispatch ⟨true, true⟩ ("Tests" :: ["clean"]) =
      (Event.unknown "Tests" :: (dispatch ⟨true, true⟩ ["clean"]).1,
        (dispatch ⟨true, true⟩ ["clean"]).2) ∧
    (∀ t : String, lookupCmd t = none ↔ t ∉ commandNames) :=
  unknown_token_reported_and_continues ⟨true, true⟩ "Tests" ["clean"] (by decide)

/-- Claim C5: the help listing enumerates all registered commands sorted by
ascending prerequisite count; commands with equal counts keep registry
insertion order (the sort is stable); and every command with at least one
prerequisite gets, immediately after its row, a line naming its
prerequisites by display name, comma-separated, in declared order. -/
theorem help_listing_sorted_stable :
    new_commands = ["clean", "help", "ensure-zig", "ensure-asciidoc",
      "open-website", "find-bad-lines", "tests", "tests-summary", "docs",
      "build", "vasm", "site", "man-pages", "all"] ∧
    List.Chain' (fun a b => reliesCount a ≤ reliesCount b) new_commands ∧
    new_commands.length = commandNames.length ∧
    (commandNames.all fun n => new_commands.contains n) = true ∧
    (([0, 1, 7] : List Nat).all fun k =>
      new_commands.filter (fun n => reliesCount n == k)
        == commandNames.filter (fun n => reliesCount n == k)) = true ∧
    (commandNames.all fun n =>
      match lookupCmd n with
      | some c =>
        c.relies_on.isEmpty ||
          helpLines.getD (helpLines.indexOf (cmdRow n c) + 1) "" == reliesLine c
      | none => false) = true := by
  refine ⟨by decide, ?_, by decide, by decide, by decide, by decide⟩
  have h1 : new_commands = ["clean", "help", "ensure-zig", "ensure-asciidoc",
      "open-website", "find-bad-lines", "tests", "tests-summary", "docs",
      "build", "vasm", "site", "man-pages", "all"] := by decide
  rw [h1]
  simp only [List.chain'_cons, List.chain'_singleton, and_true]
  decide

/-- Claim C6: `help` prints the listing and exits 0; any tokens after a
help token are never processed, so the run is the same as if the
invocation had ended at that help token. -/
theorem help_terminates_invocation (env : Env) (pre rest : List String) :
    dispatch env (pre ++ "help" :: rest) = dispatch env (pre ++ ["help"]) ∧
    dispatch env ["help"] = (helpEvents, some 0) := by
  constructor
  · induction pre with
    | nil => rfl
    | cons t ts ih =>
      simp only [List.cons_append, dispatch]
      rcases hd : dispatchToken env t with ⟨es, c⟩
      cases c with
      | none => simp [ih]
      | some k => rfl
  · rfl

/-- Counterexample to claim C7 as stated: the trace of dispatching
["help", "help"] is not the concatenation of two single-"help" traces —
`help_make` exits the process, so the second token is never processed. -/
theorem duplicate_help_trace_not_concat :
    (dispatch ⟨true, true⟩ ["help", "help"]).1 ≠
      (dispatch ⟨true, true⟩ ["help"]).1 ++ (dispatch ⟨true, true⟩ ["help"]).1 := by
  decide

/-- Claim C7 (amended): as long as no dispatched token makes a step call
`exit` (so in particular no `help` token and no failing tool check), the
trace of a token list is the concatenation of the single-token traces,
with no deduplication or caching — duplicates re-run everything. -/
theorem traces_concat_when_no_exit (env : Env) (toks : List String)
    (h : ∀ t ∈ toks, (dispatchToken env t).2 = none) :
    dispatch env toks = (toks.flatMap (fun t => (dispatchToken env t).1), none) := by
  induction toks with
  | nil => rfl
  | cons t ts ih =>
    have ht : (dispatchToken env t).2 = none := h t (List.mem_cons_self t ts)
    rcases hd : dispatchToken env t with ⟨es, c⟩
    rw [hd] at ht
    simp only at ht
    subst ht
    have hrec := ih (fun q hq => h q (List.mem_cons_of_mem t hq))
    simp [dispatch, hd, hrec, List.flatMap_cons]

/-- Witness for the amended C7: dispatching "tests" twice runs the full
`ensure_zig` prerequisite chain and the `tests` action twice. -/
theorem traces_concat_when_no_exit_witness :
    dispatch ⟨true, true⟩ ["tests", "tests"] =
      ([Event.runningDependent Step.ensure_zig, Event.hasZig, Event.run Step.tests,
        Event.runningDependent Step.ensure_zig, Event.hasZig, Event.run Step.tests], none) :=
  traces_concat_when_no_exit ⟨true, true⟩ ["tests", "tests"] (by decide)

end X

/-- Claim C8: the documentation extractor of generate-docs.py returns, for
any readable file, exactly the stripped forms of the lines that begin with
the marker "///" and whose stripped form is not the bare marker; on the
file ["/// does X", "///", "code();"] it returns exactly ["/// does X"]. -/
theorem doc_extractor_exact :
    (∀ lines : List String,
      GenerateDocs.extractAllDocumentation lines = GenerateDocs.docSpecLines lines) ∧
    GenerateDocs.extractAllDocumentation ["/// does X", "///", "code();"]
      = ["/// does X"] := by
  constructor
  · intro lines
    have h := PyStr.foldl_push_eq
      (fun l => PyStr.startsWith l "///" && PyStr.strip l != "///") PyStr.strip lines []
    simpa [GenerateDocs.extractAllDocumentation, GenerateDocs.docSpecLines] using h
  · rfl

/-- Claim C9: the TODO extractor of todo.py returns exactly the stripped
form of each line containing the substring "TODO" anywhere (the predicate
used is a genuine substring test), it returns the example line
verbatim-trimmed, and a file with an empty result produces no output block
(no header and no lines). -/
theorem todo_extractor_exact :
    (∀ lines : List String,
      Todo.extractAllDocumentation lines
        = (lines.filter fun l => PyStr.strFind Todo.todoMarker l.data).map PyStr.strip) ∧
    (∀ l : String, PyStr.strFind Todo.todoMarker l.data = true ↔
      ∃ pre post, l.data = pre ++ Todo.todoMarker ++ post) ∧
    Todo.extractAllDocumentation ["x = 1 // TODO fix this"]
      = ["x = 1 // TODO fix this"] ∧
    (∀ path lines, Todo.extractAllDocumentation lines = [] →
      Todo.outputBlock path lines = []) := by
  refine ⟨?_, ?_, rfl, ?_⟩
  · intro lines
    have h := PyStr.foldl_push_eq
      (fun l => PyStr.strFind Todo.todoMarker l.data) PyStr.strip lines []
    simpa [Todo.extractAllDocumentation] using h
  · intro l
    exact PyStr.strFind_iff Todo.todoMarker l.data
  · intro path lines h
    simp [Todo.outputBlock, h]

/-- Witness for C9: a file whose lines have no TODO marker yields an empty
result and no output block. -/
theorem todo_extractor_exact_witness :
    Todo.outputBlock "./main.zig" ["const x = 1;"] = [] :=
  todo_extractor_exact.2.2.2 "./main.zig" ["const x = 1;"] rfl

namespace X

/-- No single character contains the fifteen-character needle. -/
theorem strFind_badNeedle_char (c : Char) : PyStr.strFind badNeedle [c] = false := by
  have hb : badNeedle = 's' :: 't' :: ['d', '.', 'd', 'e', 'b', 'u', 'g', '.',
      'p', 'r', 'i', 'n', 't'] := rfl
  rw [hb]
  simp [PyStr.strFind, List.isPrefixOf]

/-- Claim C10: `find_bad_lines` iterates the characters of the whole file
contents, and a one-character string never contains "std.debug.print", so
the per-line reporting branch is unreachable: the scan reports nothing for
any file contents. -/
theorem find_bad_lines_reports_nothing (contents : String) :
    find_bad_lines_reports contents = [] := by
  have hgen : ∀ (l : List Char) (acc : List String),
      l.foldl
        (fun acc line =>
          if PyStr.strFind badNeedle [line] then acc ++ [PyStr.strip (String.mk [line])]
          else acc) acc = acc := by
    intro l
    induction l with
    | nil =>
      intro acc
      rfl
    | cons c t ih =>
      intro acc
      simp [List.foldl, strFind_badNeedle_char c, ih]
  exact hgen contents.data []

end X
